import Mathlib

/-!
# Verification of the `scroll` terminal pager

A shallow embedding of the viewer state machine of the `scroll` pager
(`src/app.rs`, `src/cmd.rs`, `src/term.rs`) together with theorems settling
the specification claims about it.

Modelling conventions:
* Rust `usize` arithmetic is modelled by `Nat`; `checked_sub(..).unwrap_or(0)`
  is exactly `Nat` truncated subtraction.
* A Rust `String` is modelled by its sequence of characters, `List Char`.
  Where the source manipulates byte positions (`str::len`, byte-range
  slicing), the byte length is recovered with `Char.utf8Size`.
* Code paths that panic in Rust (`unreachable!` for a mode-mismatched
  command, and slicing a `String` off a character boundary) are modelled by
  `Except Panic`, with a distinct error value per panic site.
* The terminal (`Term` in `src/term.rs`) is reduced to its dimensions; the
  drawing side effects are irrelevant to the claims except for the padded
  line width of `write_line` and the status-bar percentage, which are
  modelled as pure functions (`f32` arithmetic is modelled exactly in `ℚ`;
  the values the claims mention are exact in `f32` as well).
-/

/-- A buffered text line: a Rust `String` as its character sequence. -/
abbrev Line := List Char

/-- `src/term.rs`: the terminal, reduced to its queried dimensions
(`width()`, `height()`). -/
structure Term where
  width : Nat
  height : Nat
deriving DecidableEq

/-- Modelled from the spec: the repository's module declaring `Mode`
(`mode.rs`) is not under `src/`. Spec section 3 fixes it: *Viewing*, carrying
an optional active search term, or *Searching*, carrying the in-progress
input text. The construction sites in `src/app.rs`
(`Mode::Viewing(None)`, `Mode::Searching("".into())`,
`Mode::Viewing(Some(..))`) agree with this shape. -/
inductive Mode where
  | viewing (activeTerm : Option Line)
  | searching (input : Line)
deriving DecidableEq

/-- The subset of `termion::event::Key` the program distinguishes.
Every other key (arrows left/right, function keys, escape, ...) falls into
the catch-all arms of both translations in `src/cmd.rs`, so they are
collapsed into the single constructor `other`. `endKey` is `Key::End`. -/
inductive Key where
  | char (c : Char)
  | ctrl (c : Char)
  | up
  | down
  | home
  | endKey
  | pageUp
  | pageDown
  | backspace
  | other
deriving DecidableEq

/-- `src/cmd.rs`: scroll directions. -/
inductive Dir where
  | up (count : Nat)
  | down (count : Nat)
  | halfPageUp
  | halfPageDown
  | top
  | bottom
deriving DecidableEq

/-- `src/cmd.rs`: commands available in `Viewing` mode. -/
inductive ViewCmd where
  | quit
  | scroll (d : Dir)
  | startSearching
  | nextSearchResult
  | noop
deriving DecidableEq

/-- `src/cmd.rs`: commands available in `Searching` mode. -/
inductive SearchCmd where
  | enterText (text : Line)
  | removeChar
  | confirm
  | noop
deriving DecidableEq

/-- `src/cmd.rs`: a command tagged with the mode family it belongs to. -/
inductive Cmd where
  | view (c : ViewCmd)
  | search (c : SearchCmd)
deriving DecidableEq

/-- The two panic sites of `State::handle_key` in `src/app.rs`:
`unreachable!("Got mismatched event for current mode.")`, and the byte-range
slice `search_text[0..search_text.len() - 1]` landing off a character
boundary. -/
inductive Panic where
  | mismatchedMode
  | charBoundary
deriving DecidableEq

/-- `src/app.rs`: `const STATUS_BAR_HEIGHT: usize = 1`. -/
def STATUS_BAR_HEIGHT : Nat := 1

/-- `src/cmd.rs`, `impl From<Key> for ViewCmd`. The Rust `match` arms are
rendered as an ordered `if` chain over the payload character. -/
def viewCmdFromKey : Key → ViewCmd
  | .char c =>
      if c = 'q' then .quit
      else if c = 'j' then .scroll (.down 1)
      else if c = 'k' then .scroll (.up 1)
      else if c = 'n' then .nextSearchResult
      else if c = 'g' then .scroll .top
      else if c = 'G' then .scroll .bottom
      else if c = '/' then .startSearching
      else .noop
  | .ctrl c =>
      if c = 'c' then .quit
      else if c = 'd' then .scroll .halfPageDown
      else if c = 'u' then .scroll .halfPageUp
      else .noop
  | .down => .scroll (.down 1)
  | .up => .scroll (.up 1)
  | .home => .scroll .top
  | .endKey => .scroll .bottom
  | .pageDown => .scroll .halfPageDown
  | .pageUp => .scroll .halfPageUp
  | _ => .noop

/-- `src/cmd.rs`, `impl From<Key> for SearchCmd`: `Key::Char('\n')` confirms,
any other character is appended, backspace removes, everything else is a
no-op. -/
def searchCmdFromKey : Key → SearchCmd
  | .char c => if c = '\n' then .confirm else .enterText [c]
  | .backspace => .removeChar
  | _ => .noop

/-- `src/cmd.rs`: `Cmd::from_key` — mode-scoped key translation. -/
def Cmd.fromKey (mode : Mode) (key : Key) : Cmd :=
  match mode with
  | .viewing _ => .view (viewCmdFromKey key)
  | .searching _ => .search (searchCmdFromKey key)

/-- `startsWith hay needle`: `needle` is a prefix of `hay`
(the inner step of the substring scan of Rust `str::contains`). -/
def startsWith : Line → Line → Bool
  | _, [] => true
  | [], _ :: _ => false
  | a :: hay, b :: needle => a == b && startsWith hay needle

/-- `containsSub hay needle`: Rust `hay.contains(needle)` — literal substring
search, scanning every suffix of `hay` for `needle` as a prefix.
(UTF-8 is self-synchronizing, so byte-level and character-level substring
occurrence coincide.) -/
def containsSub : Line → Line → Bool
  | [], needle => needle.isEmpty
  | a :: hay, needle => startsWith (a :: hay) needle || containsSub hay needle

/-- Rust `Iterator::position`: index of the first element satisfying `p`. -/
def position (p : α → Bool) : List α → Option Nat
  | [] => none
  | a :: l => if p a then some 0 else (position p l).map (· + 1)

/-- `src/app.rs`: the viewer state (`struct State`), minus the live terminal
handle, which is reduced to its dimensions. -/
structure State where
  data : List Line
  offset : Nat
  term : Term
  dirty : Bool
  mode : Mode
deriving DecidableEq

/-- `src/app.rs`, `State::max_offset`:
`data.len().checked_sub(term.height()).unwrap_or(0) + STATUS_BAR_HEIGHT`. -/
def State.maxOffset (s : State) : Nat :=
  s.data.length - s.term.height + STATUS_BAR_HEIGHT

/-- `src/app.rs`, `State::update_offset`: clamp the candidate offset with
`min(func(offset), max_offset)` and mark dirty only on an actual change. -/
def State.updateOffset (s : State) (func : Nat → Nat) : State :=
  let offset := min (func s.offset) s.maxOffset
  if offset ≠ s.offset then { s with offset := offset, dirty := true } else s

/-- `src/app.rs`, `State::scroll_bottom`: request `data.len()` pre-clamp. -/
def State.scrollBottom (s : State) : State :=
  s.updateOffset (fun _ => s.data.length)

/-- `src/app.rs`, `State::scroll_down`. -/
def State.scrollDown (s : State) (count : Nat) : State :=
  s.updateOffset (fun offset => offset + count)

/-- `src/app.rs`, `State::scroll_up`:
`offset.checked_sub(count).unwrap_or(0)` is `Nat` subtraction. -/
def State.scrollUp (s : State) (count : Nat) : State :=
  s.updateOffset (fun offset => offset - count)

/-- `src/app.rs`, `State::scroll_half_up`: note the source uses the full
terminal height `self.term.height()`, not the viewport height. -/
def State.scrollHalfUp (s : State) : State :=
  s.updateOffset (fun offset => offset - s.term.height / 2)

/-- `src/app.rs`, `State::scroll_half_down`: same `self.term.height()`. -/
def State.scrollHalfDown (s : State) : State :=
  s.updateOffset (fun offset => offset + s.term.height / 2)

/-- `src/app.rs`, `State::scroll`. -/
def State.scroll (s : State) (dir : Dir) : State :=
  match dir with
  | .up count => s.scrollUp count
  | .down count => s.scrollDown count
  | .halfPageDown => s.scrollHalfDown
  | .halfPageUp => s.scrollHalfUp
  | .top => s.updateOffset (fun _ => 0)
  | .bottom => s.scrollBottom

/-- `src/app.rs`, `State::next_occurrence_offset`:
`data.iter().skip(starting_at).position(|line| line.contains(text))
     .map(|base| base + starting_at)`. -/
def State.nextOccurrenceOffset (s : State) (searchText : Line)
    (startingAt : Nat) : Option Nat :=
  (position (fun line => containsSub line searchText)
      (s.data.drop startingAt)).map (fun base => base + startingAt)

/-- `src/app.rs`, `State::append`: extend the buffer, and set dirty when
`old_len + offset <= term.height() - STATUS_BAR_HEIGHT`. -/
def State.append (s : State) (lines : List Line) : State :=
  let oldLen := s.data.length
  let s1 : State := { s with data := s.data ++ lines }
  if oldLen + s.offset ≤ s.term.height - STATUS_BAR_HEIGHT then
    { s1 with dirty := true }
  else s1

/-- The byte length of a string modelled as its character list:
Rust `str::len`. -/
def byteLen (l : Line) : Nat := (l.map Char.utf8Size).sum

/-- The byte-range slice `text[0..text.len() - 1]` of `SearchCmd::RemoveChar`
in `src/app.rs`, performed on a (non-empty) character list. Byte position
`len - 1` is a character boundary exactly when the final character occupies
one byte; then the slice drops that character. Off a boundary, Rust
panics — modelled as `none`. -/
def removeLastByte (text : Line) : Option Line :=
  match text.getLast? with
  | none => none
  | some c => if c.utf8Size = 1 then some text.dropLast else none

/-- `src/app.rs`, `State::handle_key`: dispatch a key through the
mode-scoped translation and the nested `match`. Returns the next state and
the quit flag, or the panic reached. -/
def State.handleKey (s : State) (key : Key) : Except Panic (State × Bool) :=
  match s.mode, Cmd.fromKey s.mode key with
  | .viewing maybeSearchText, .view viewCmd =>
    match viewCmd with
    | .quit => .ok (s, true)
    | .scroll dir => .ok (s.scroll dir, false)
    | .startSearching => .ok ({ s with mode := .searching [] }, false)
    | .nextSearchResult =>
      match maybeSearchText with
      | some searchText =>
        let newOffset :=
          (s.nextOccurrenceOffset searchText (s.offset + 1)).getD s.offset
        .ok ({ s with dirty := true, offset := newOffset }, false)
      | none => .ok (s, false)
    | .noop => .ok (s, false)
  | .searching searchText, .search searchCmd =>
    match searchCmd with
    | .enterText text =>
      .ok ({ s with mode := .searching (searchText ++ text) }, false)
    | .removeChar =>
      if searchText.isEmpty then .ok (s, false)
      else
        match removeLastByte searchText with
        | some text => .ok ({ s with mode := .searching text }, false)
        | none => .error .charBoundary
    | .confirm =>
      if searchText.isEmpty then
        .ok ({ s with dirty := true, mode := .viewing none }, false)
      else
        let newOffset :=
          (s.nextOccurrenceOffset searchText s.offset).getD s.offset
        let newMode : Mode := .viewing (some searchText)
        .ok ({ s with dirty := true, offset := newOffset, mode := newMode },
          false)
    | .noop => .ok (s, false)
  | _, _ => .error .mismatchedMode

/-- `src/app.rs`, `State::new`: initial offset `0`, dirty, `Viewing(None)`.
The buffer is a parameter so states with any buffer content (reached by
appends, which never touch the offset) are covered. -/
def initState (data : List Line) (width height : Nat) : State :=
  { data := data, offset := 0, term := { width := width, height := height },
    dirty := true, mode := .viewing none }

/-- A sequence of scroll commands applied in order. -/
def applyScrolls (s : State) (dirs : List Dir) : State :=
  dirs.foldl State.scroll s

/-- A drawn (clean) state on a 10x10 terminal in `Searching` mode with the
given in-progress input, used for concrete instances. -/
def searchingState (input : Line) : State :=
  { data := [], offset := 0, term := { width := 10, height := 10 },
    dirty := false, mode := .searching input }

/-- Concrete state: searching for `"z"` over the one-line buffer `["a"]`
(no occurrence anywhere). -/
def c2NoMatchState : State := { searchingState ['z'] with data := [['a']] }

/-- Concrete state: searching for `"z"` over the buffer `["b", "z"]`
(occurrence only at index 1). -/
def c2MatchState : State :=
  { searchingState ['z'] with data := [['b'], ['z']] }

/-- Concrete state: viewing with active term `"a"` over the buffer
`["b", "a"]` at offset 0. -/
def c6ViewState : State :=
  { data := [['b'], ['a']], offset := 0,
    term := { width := 10, height := 10 }, dirty := false,
    mode := .viewing (some ['a']) }

/-- `src/app.rs`, `State::draw_status_bar`: the displayed percentage
`(offset as f32) / (max(max_offset, 1) as f32) * 100.0`, modelled exactly
over `ℚ`. -/
def statusPercent (s : State) : ℚ :=
  (s.offset : ℚ) / (max s.maxOffset 1 : ℚ) * 100

/-- `src/term.rs`, `Term::write_line`: the characters written for one line
(without the trailing `"\r\n"`, which occupies no columns):
`string` followed by `width - (string.len() % width)` blanks. -/
def writeLine (string : Line) (width : Nat) : Line :=
  string ++ List.replicate (width - byteLen string % width) ' '

/-- Whether a buffer line at index `i` exists and contains `text`
(out-of-range indices match nothing). -/
def lineMatchesAt (data : List Line) (text : Line) (i : Nat) : Bool :=
  match data[i]? with
  | some line => containsSub line text
  | none => false

/-- Spec-side definition, for comparison with the code (claim C1):
the spec's scroll bound `max(0, L - H)` over buffer length `L` and viewport
height `H`. -/
def specMaxOffset (bufLen viewportHeight : Nat) : Nat :=
  max 0 (bufLen - viewportHeight)

/-- Spec-side definition, for comparison with the code (claim C3): appended
lines starting at index `oldLen` land inside the viewport of `height` rows
starting at `offset` exactly when the buffer did not already fill those
rows. -/
def specLandsInViewport (oldLen offset height : Nat) : Prop :=
  oldLen < offset + height

/-- Spec-side definition, for comparison with the code (claim C9): a command
matches a mode when its family agrees with the mode family. -/
def cmdMatchesMode : Mode → Cmd → Bool
  | .viewing _, .view _ => true
  | .searching _, .search _ => true
  | _, _ => false

deriving instance DecidableEq for Except

/-! ## Helper lemmas -/

theorem updateOffset_offset (s : State) (f : Nat → Nat) :
    (s.updateOffset f).offset = min (f s.offset) s.maxOffset := by
  simp only [State.updateOffset]
  split
  · rfl
  · next h => exact (not_ne_iff.mp h).symm

theorem updateOffset_data (s : State) (f : Nat → Nat) :
    (s.updateOffset f).data = s.data := by
  simp only [State.updateOffset]
  split <;> rfl

theorem updateOffset_term (s : State) (f : Nat → Nat) :
    (s.updateOffset f).term = s.term := by
  simp only [State.updateOffset]
  split <;> rfl

theorem scroll_data (s : State) (d : Dir) : (s.scroll d).data = s.data := by
  cases d <;>
    simp [State.scroll, State.scrollUp, State.scrollDown, State.scrollHalfUp,
      State.scrollHalfDown, State.scrollBottom, updateOffset_data]

theorem scroll_term (s : State) (d : Dir) : (s.scroll d).term = s.term := by
  cases d <;>
    simp [State.scroll, State.scrollUp, State.scrollDown, State.scrollHalfUp,
      State.scrollHalfDown, State.scrollBottom, updateOffset_term]

theorem scroll_maxOffset (s : State) (d : Dir) :
    (s.scroll d).maxOffset = s.maxOffset := by
  unfold State.maxOffset
  rw [scroll_data, scroll_term]

theorem scroll_offset_le (s : State) (d : Dir) :
    (s.scroll d).offset ≤ s.maxOffset := by
  cases d <;>
    simp [State.scroll, State.scrollUp, State.scrollDown, State.scrollHalfUp,
      State.scrollHalfDown, State.scrollBottom, updateOffset_offset]

theorem applyScrolls_maxOffset (ds : List Dir) (s : State) :
    (applyScrolls s ds).maxOffset = s.maxOffset := by
  induction ds generalizing s with
  | nil => rfl
  | cons d ds ih =>
    show (applyScrolls (s.scroll d) ds).maxOffset = s.maxOffset
    rw [ih, scroll_maxOffset]

theorem applyScrolls_offset_le (ds : List Dir) (s : State)
    (h : s.offset ≤ s.maxOffset) :
    (applyScrolls s ds).offset ≤ s.maxOffset := by
  induction ds generalizing s with
  | nil => exact h
  | cons d ds ih =>
    show (applyScrolls (s.scroll d) ds).offset ≤ s.maxOffset
    rw [← scroll_maxOffset s d]
    exact ih (s.scroll d) (by rw [scroll_maxOffset]; exact scroll_offset_le s d)

theorem position_cons {α : Type} (p : α → Bool) (x : α) (l : List α) :
    position p (x :: l) =
      if p x then some 0 else (position p l).map (· + 1) := rfl

theorem position_none {α : Type} (p : α → Bool) :
    ∀ l : List α, position p l = none →
      ∀ (i : Nat) (a : α), l[i]? = some a → p a = false := by
  intro l
  induction l with
  | nil => intro _ i a ha; simp at ha
  | cons x l ih =>
    intro h i a ha
    rw [position_cons] at h
    by_cases hp : p x
    · rw [if_pos hp] at h
      exact absurd h (by simp)
    · rw [if_neg hp, Option.map_eq_none'] at h
      match i with
      | 0 =>
        rw [List.getElem?_cons_zero] at ha
        cases ha
        exact Bool.eq_false_iff.mpr hp
      | j + 1 =>
        rw [List.getElem?_cons_succ] at ha
        exact ih h j a ha

theorem position_some {α : Type} (p : α → Bool) :
    ∀ (l : List α) (i : Nat), position p l = some i →
      (∃ a : α, l[i]? = some a ∧ p a = true) ∧
        ∀ j : Nat, j < i → ∀ a : α, l[j]? = some a → p a = false := by
  intro l
  induction l with
  | nil => intro i h; simp [position] at h
  | cons x l ih =>
    intro i h
    rw [position_cons] at h
    by_cases hp : p x
    · rw [if_pos hp] at h
      cases h
      exact ⟨⟨x, List.getElem?_cons_zero, hp⟩, fun j hj => by omega⟩
    · rw [if_neg hp, Option.map_eq_some'] at h
      obtain ⟨b, hb, rfl⟩ := h
      obtain ⟨⟨a, ha, hpa⟩, hmin⟩ := ih b hb
      refine ⟨⟨a, ?_, hpa⟩, ?_⟩
      · rw [List.getElem?_cons_succ]; exact ha
      · intro j hj c hc
        match j with
        | 0 =>
          rw [List.getElem?_cons_zero] at hc
          cases hc
          exact Bool.eq_false_iff.mpr hp
        | k + 1 =>
          rw [List.getElem?_cons_succ] at hc
          exact hmin k (by omega) c hc

theorem nextOccurrenceOffset_none (s : State) (t : Line) (st : Nat)
    (h : s.nextOccurrenceOffset t st = none) :
    ∀ j, st ≤ j → lineMatchesAt s.data t j = false := by
  intro j hj
  unfold State.nextOccurrenceOffset at h
  rw [Option.map_eq_none'] at h
  have hdrop := position_none _ _ h (j - st)
  unfold lineMatchesAt
  match hget : s.data[j]? with
  | none => rfl
  | some line =>
    have : (s.data.drop st)[j - st]? = some line := by
      rw [List.getElem?_drop]
      have : st + (j - st) = j := by omega
      rw [this]
      exact hget
    exact hdrop line this

theorem nextOccurrenceOffset_some (s : State) (t : Line) (st i : Nat)
    (h : s.nextOccurrenceOffset t st = some i) :
    st ≤ i ∧ lineMatchesAt s.data t i = true ∧
      ∀ j, st ≤ j → j < i → lineMatchesAt s.data t j = false := by
  unfold State.nextOccurrenceOffset at h
  rw [Option.map_eq_some'] at h
  obtain ⟨b, hb, rfl⟩ := h
  obtain ⟨⟨line, hline, hpl⟩, hmin⟩ := position_some _ _ _ hb
  rw [List.getElem?_drop] at hline
  refine ⟨by omega, ?_, ?_⟩
  · unfold lineMatchesAt
    rw [Nat.add_comm st b] at hline
    rw [hline]
    exact hpl
  · intro j hj1 hj2
    have hmj := hmin (j - st) (by omega)
    unfold lineMatchesAt
    match hget : s.data[j]? with
    | none => rfl
    | some lj =>
      refine hmj lj ?_
      rw [List.getElem?_drop]
      have : st + (j - st) = j := by omega
      rw [this]
      exact hget

theorem updateOffset_maxOffset (s : State) (f : Nat → Nat) :
    (s.updateOffset f).maxOffset = s.maxOffset := by
  unfold State.maxOffset
  rw [updateOffset_data, updateOffset_term]

/-! ## Claim C1 -/

/-- C1, counterexample to the claim as stated: with an empty buffer
(`L = 0`) and terminal height 10 (viewport height `H = 9`), the single
scroll command `Down(1)` applied from the initial offset `0` yields offset
`1`, which exceeds the claimed bound `max(0, L - H) = 0`. -/
theorem C1_counterexample :
    (applyScrolls (initState [] 10 10) [Dir.down 1]).offset = 1 ∧
      ¬ (applyScrolls (initState [] 10 10) [Dir.down 1]).offset ≤
          specMaxOffset (List.length ([] : List Line)) (10 - 1) := by
  decide

/-- C1, amended: for every buffer length `L`, terminal height `h ≥ 1`
(viewport height `H = h - 1`) and sequence of scroll commands applied from
the initial offset `0`, the offset satisfies
`0 ≤ offset ≤ max(1, L - H)` — the code's `max_offset` adds the one-row
status-bar adjustment, so the bound is `max(1, L - H)` rather than the
claimed `max(0, L - H)`; the two agree whenever `L > H`. -/
theorem C1_scroll_offset_invariant (data : List Line) (w h : Nat)
    (hh : 1 ≤ h) (ds : List Dir) :
    0 ≤ (applyScrolls (initState data w h) ds).offset ∧
      (applyScrolls (initState data w h) ds).offset ≤
        max 1 (data.length - (h - 1)) := by
  refine ⟨Nat.zero_le _, ?_⟩
  have h1 : (applyScrolls (initState data w h) ds).offset ≤
      (initState data w h).maxOffset :=
    applyScrolls_offset_le ds _ (Nat.zero_le _)
  have h2 : (initState data w h).maxOffset = max 1 (data.length - (h - 1)) := by
    show data.length - h + STATUS_BAR_HEIGHT = max 1 (data.length - (h - 1))
    unfold STATUS_BAR_HEIGHT
    omega
  omega

/-- C1, witness for the amended invariant at a concrete input. -/
theorem C1_witness :
    0 ≤ (applyScrolls (initState [['a']] 10 10) [Dir.down 3]).offset ∧
      (applyScrolls (initState [['a']] 10 10) [Dir.down 3]).offset ≤
        max 1 (List.length [['a']] - (10 - 1)) :=
  C1_scroll_offset_invariant [['a']] 10 10 (by decide) [Dir.down 3]

/-! ## Claim C4 -/

/-- C4, counterexample to the claim as stated: with terminal height 10 the
viewport height is 9, so the claim predicts a half-page step of
`9 / 2 = 4`; but from offset 10 the code's `HalfPageUp` lands at offset
`5` (a step of `10 / 2 = 5`), while `Up(4)` lands at offset `6`. -/
theorem C4_counterexample :
    (({ initState (List.replicate 30 ([] : Line)) 10 10 with
        offset := 10 }).scroll Dir.halfPageUp).offset = 5 ∧
    (({ initState (List.replicate 30 ([] : Line)) 10 10 with
        offset := 10 }).scroll (Dir.up ((10 - 1) / 2))).offset = 6 ∧
    ¬ ({ initState (List.replicate 30 ([] : Line)) 10 10 with
        offset := 10 }).scroll Dir.halfPageUp
      = ({ initState (List.replicate 30 ([] : Line)) 10 10 with
        offset := 10 }).scroll (Dir.up ((10 - 1) / 2)) := by
  decide

/-- C4, amended: `HalfPageUp` and `HalfPageDown` behave exactly like
`Up(n)` and `Down(n)` with `n = terminal_height / 2` (integer division on
the full terminal height, status row included), not
`viewport_height / 2`. -/
theorem C4_half_page_uses_terminal_height (s : State) :
    s.scroll Dir.halfPageUp = s.scroll (Dir.up (s.term.height / 2)) ∧
    s.scroll Dir.halfPageDown = s.scroll (Dir.down (s.term.height / 2)) :=
  ⟨rfl, rfl⟩

/-! ## Claim C5 -/

/-- C5, counterexample to the claim as stated: on an empty buffer
(terminal height 10) `max_offset` is `1`, but `Bottom` pre-clamps to the
buffer length `0`, so the offset stays `0 ≠ max_offset` — `Bottom` does not
always yield `max_offset`. -/
theorem C5_counterexample :
    ((initState [] 10 10).scroll Dir.bottom).offset = 0 ∧
    (initState [] 10 10).maxOffset = 1 ∧
    ¬ ((initState [] 10 10).scroll Dir.bottom).offset
        = (initState [] 10 10).maxOffset := by
  decide

/-- C5, amended: `Top` always sets the offset to `0`; `Bottom` sets it to
`min(buffer length, max_offset)`, which equals `max_offset` whenever the
buffer is non-empty (and the terminal height is at least 1); in particular
with 25 buffered lines and terminal height 10 (9 text rows) `Bottom` sets
the offset to 16 and the status percentage to 100%. -/
theorem C5_top_bottom (s : State) (hne : s.data ≠ [])
    (hh : 1 ≤ s.term.height) :
    (s.scroll Dir.top).offset = 0 ∧
    (s.scroll Dir.bottom).offset = min s.data.length s.maxOffset ∧
    (s.scroll Dir.bottom).offset = s.maxOffset ∧
    ((initState (List.replicate 25 []) 10 10).scroll Dir.bottom).offset
      = 16 ∧
    statusPercent ((initState (List.replicate 25 []) 10 10).scroll
      Dir.bottom) = 100 := by
  have htop : (s.scroll Dir.top).offset = 0 := by
    show (s.updateOffset fun _ => 0).offset = 0
    rw [updateOffset_offset]
    exact Nat.min_eq_left (Nat.zero_le _)
  have hbot : (s.scroll Dir.bottom).offset = min s.data.length s.maxOffset := by
    show (s.updateOffset fun _ => s.data.length).offset = _
    rw [updateOffset_offset]
  have hlen : 1 ≤ s.data.length := List.length_pos.mpr hne
  have hle : s.maxOffset ≤ s.data.length := by
    show s.data.length - s.term.height + STATUS_BAR_HEIGHT ≤ s.data.length
    unfold STATUS_BAR_HEIGHT
    omega
  have hoff : ((initState (List.replicate 25 []) 10 10).scroll
      Dir.bottom).offset = 16 := by decide
  refine ⟨htop, hbot, ?_, hoff, ?_⟩
  · rw [hbot]
    exact Nat.min_eq_right hle
  · have hmax : ((initState (List.replicate 25 []) 10 10).scroll
        Dir.bottom).maxOffset = 16 := by decide
    unfold statusPercent
    rw [hoff, hmax]
    norm_num

/-- C5, witness for the amended claim at a concrete input. -/
theorem C5_witness :
    ((initState [['a']] 10 10).scroll Dir.top).offset = 0 ∧
    ((initState [['a']] 10 10).scroll Dir.bottom).offset
      = min (List.length [['a']]) (initState [['a']] 10 10).maxOffset ∧
    ((initState [['a']] 10 10).scroll Dir.bottom).offset
      = (initState [['a']] 10 10).maxOffset ∧
    ((initState (List.replicate 25 []) 10 10).scroll Dir.bottom).offset
      = 16 ∧
    statusPercent ((initState (List.replicate 25 []) 10 10).scroll
      Dir.bottom) = 100 :=
  C5_top_bottom (initState [['a']] 10 10) (by decide) (by decide)

/-! ## Claim C7 -/

theorem byteLen_append (a b : Line) :
    byteLen (a ++ b) = byteLen a + byteLen b := by
  unfold byteLen
  rw [List.map_append, List.sum_append]

theorem byteLen_replicate_space (n : Nat) :
    byteLen (List.replicate n ' ') = n := by
  unfold byteLen
  rw [List.map_replicate]
  have h1 : Char.utf8Size ' ' = 1 := by decide
  rw [h1, List.sum_replicate, smul_eq_mul, mul_one]

/-- C7, counterexample to the claim as stated: a string whose length equals
the terminal width is "at most the width", yet `write_line` writes the
string followed by `width - (len % width) = width` blanks, a total of
`2 * width` columns, not `width`. -/
theorem C7_counterexample :
    byteLen (List.replicate 4 'a') ≤ 4 ∧
    byteLen (writeLine (List.replicate 4 'a') 4) = 8 ∧
    ¬ byteLen (writeLine (List.replicate 4 'a') 4) = 4 := by
  decide

/-- C7, amended: for every rendered string strictly shorter than the
terminal width, `write_line` emits the string padded to exactly the
terminal width; at length exactly the width the output is two full
rows. -/
theorem C7_write_line_pads (string : Line) (width : Nat)
    (hl : byteLen string < width) :
    byteLen (writeLine string width) = width := by
  unfold writeLine
  rw [byteLen_append, byteLen_replicate_space, Nat.mod_eq_of_lt hl]
  omega

/-- C7, witness for the amended claim at a concrete input. -/
theorem C7_witness : byteLen (writeLine (List.replicate 3 'a') 4) = 4 :=
  C7_write_line_pads (List.replicate 3 'a') 4 (by decide)

/-! ## Claim C8 -/

/-- C8: the code, evaluated on the claim's scenario and on a failing input.
Backspace in `Searching` mode with an empty input buffer is a no-op (the
mode stays `Searching`, no panic), and with the ASCII buffer `"ab"` it
removes the final character; but with the buffer `"é"` (one two-byte
character) the slice `search_text[0..search_text.len() - 1]` falls off a
character boundary and the code panics, contradicting the claim's "removes
the last character ... without failing". -/
theorem C8_backspace_panics_on_multibyte :
    (State.handleKey (searchingState []) Key.backspace
      = .ok (searchingState [], false)) ∧
    (State.handleKey (searchingState ['a', 'b']) Key.backspace
      = .ok (searchingState ['a'], false)) ∧
    (State.handleKey (searchingState ['é']) Key.backspace
      = .error Panic.charBoundary) := by
  decide

/-! ## Claim C10 -/

/-- C10: from any offset `o` with `n ≤ o` and `o ≤ max_offset`, `Up(n)`
followed by `Down(n)` returns the offset to `o`. -/
theorem C10_up_down_roundtrip (s : State) (n : Nat)
    (h1 : n ≤ s.offset) (h2 : s.offset ≤ s.maxOffset) :
    ((s.scroll (Dir.up n)).scroll (Dir.down n)).offset = s.offset := by
  show ((s.scrollUp n).scrollDown n).offset = s.offset
  unfold State.scrollDown State.scrollUp
  rw [updateOffset_offset, updateOffset_offset, updateOffset_maxOffset]
  omega

/-- C10, witness at a concrete input. -/
theorem C10_witness :
    ((({ initState (List.replicate 30 []) 10 10 with
          offset := 5 } : State).scroll (Dir.up 2)).scroll
        (Dir.down 2)).offset = 5 :=
  C10_up_down_roundtrip
    { initState (List.replicate 30 []) 10 10 with offset := 5 } 2
    (by decide) (by decide)

/-! ## Claim C3 -/

/-- C3, counterexample to the claim as stated: terminal height 10 (9 text
rows), offset 0, 9 buffered lines — the buffer already fills the viewport,
so the appended line (index 9) lands outside it and the claim says dirty
stays false; but the code's condition `old_len + offset <= height - 1`
(`9 + 0 ≤ 9`) holds, so it sets dirty. -/
theorem C3_counterexample :
    (({ initState (List.replicate 9 []) 10 10 with
        dirty := false } : State).append [['x']]).dirty = true ∧
    ¬ specLandsInViewport 9 0 (10 - 1) ∧
    (({ initState (List.replicate 9 []) 10 10 with
        dirty := false } : State).append [['x']]).offset = 0 := by
  unfold specLandsInViewport
  decide

/-- C3, amended: appending a batch never changes the offset, and (from a
clean state, terminal height ≥ 1) sets dirty exactly when
`old_len + offset ≤ height - 1` — the code adds the offset to the old
length instead of comparing the appended region against the viewport; in
particular once the buffer spans at least a full terminal of lines,
appends never set dirty, so far-scrolled-back views are not invalidated. -/
theorem C3_append_dirty_condition (s : State) (batch : List Line)
    (hd : s.dirty = false) (hh : 1 ≤ s.term.height) :
    (s.append batch).offset = s.offset ∧
    (s.append batch).data = s.data ++ batch ∧
    ((s.append batch).dirty = true ↔
      s.data.length + s.offset ≤ s.term.height - STATUS_BAR_HEIGHT) ∧
    (s.term.height ≤ s.data.length → (s.append batch).dirty = false) := by
  simp only [State.append]
  split
  · next hc =>
    refine ⟨rfl, rfl, ⟨fun _ => hc, fun _ => rfl⟩, fun hlen => ?_⟩
    unfold STATUS_BAR_HEIGHT at hc
    omega
  · next hc =>
    refine ⟨rfl, rfl, ⟨fun h => absurd (hd ▸ h) (by simp), fun h => absurd h hc⟩,
      fun _ => hd⟩

/-- C3, witness for the amended claim at a concrete input. -/
theorem C3_witness :
    ((({ initState (List.replicate 9 []) 10 10 with
        dirty := false } : State).append [['x']]).offset
      = ({ initState (List.replicate 9 []) 10 10 with
        dirty := false } : State).offset) ∧
    ((({ initState (List.replicate 9 []) 10 10 with
        dirty := false } : State).append [['x']]).data
      = ({ initState (List.replicate 9 []) 10 10 with
        dirty := false } : State).data ++ [['x']]) ∧
    (((({ initState (List.replicate 9 []) 10 10 with
        dirty := false } : State).append [['x']]).dirty = true) ↔
      (List.replicate 9 ([] : Line)).length + 0 ≤ 10 - STATUS_BAR_HEIGHT) ∧
    (10 ≤ (List.replicate 9 ([] : Line)).length →
      ((({ initState (List.replicate 9 []) 10 10 with
        dirty := false } : State).append [['x']]).dirty = false)) :=
  C3_append_dirty_condition
    { initState (List.replicate 9 []) 10 10 with dirty := false }
    [['x']] (by decide) (by decide)

/-! ## Claim C9 -/

/-- C9: for every mode and key, the translated command matches the current
mode (a View command while Viewing, a Search command while Searching), and
the `unreachable!("Got mismatched event for current mode.")` branch of the
key handler is never taken. -/
theorem C9_key_translation_matches_mode (m : Mode) (k : Key) (s : State) :
    cmdMatchesMode m (Cmd.fromKey m k) = true ∧
    s.handleKey k ≠ .error Panic.mismatchedMode := by
  constructor
  · cases m <;> rfl
  · obtain ⟨data, off, tm, dr, mode⟩ := s
    cases mode with
    | viewing a =>
      cases hv : viewCmdFromKey k <;> cases a <;>
        simp [State.handleKey, Cmd.fromKey, hv]
    | searching t =>
      cases hs : searchCmdFromKey k <;>
        simp [State.handleKey, Cmd.fromKey, hs] <;>
        split <;> try split
      all_goals simp

/-! ## Claim C2 -/

/-- C2, counterexample to the claim as stated: searching for `"z"` in the
buffer `["a"]` from offset 0, no line contains the text (the search returns
`none`), yet confirming leaves the mode `Viewing (Some "z")` — the text
still becomes the active highlight term, where the claim requires
`Viewing` with no term. -/
theorem C2_counterexample :
    c2NoMatchState.nextOccurrenceOffset ['z'] c2NoMatchState.offset
      = none ∧
    c2NoMatchState.handleKey (Key.char '\n')
      = .ok ({ c2NoMatchState with
                 dirty := true, mode := .viewing (some ['z']) }, false) ∧
    ¬ Mode.viewing (some ['z']) = Mode.viewing none := by
  decide

/-- C2, amended: confirming a non-empty search scans forward from the
current offset (inclusive); on a match the offset becomes the smallest
matching line index at or after frame offset, and on no match the offset is
unchanged — but in both cases the text becomes the active highlight term
(mode `Viewing (Some text)`), including when nothing matched. -/
theorem C2_confirm_search (s : State) (t : Line)
    (hm : s.mode = Mode.searching t) (ht : t ≠ []) :
    ∃ s2, s.handleKey (Key.char '\n') = .ok (s2, false) ∧
      s2.mode = Mode.viewing (some t) ∧
      s2.data = s.data ∧
      ((∃ i, s.offset ≤ i ∧ lineMatchesAt s.data t i = true) →
        s.offset ≤ s2.offset ∧ lineMatchesAt s.data t s2.offset = true ∧
        ∀ j, s.offset ≤ j → j < s2.offset →
          lineMatchesAt s.data t j = false) ∧
      ((∀ i, s.offset ≤ i → lineMatchesAt s.data t i = false) →
        s2.offset = s.offset) := by
  obtain ⟨data, off, tm, dr, mode⟩ := s
  have hm2 : mode = Mode.searching t := hm
  subst hm2
  have hne : t.isEmpty = false := by
    cases t with
    | nil => exact absurd rfl ht
    | cons a l => rfl
  have h0 : State.handleKey ⟨data, off, tm, dr, Mode.searching t⟩
      (Key.char '\n') =
      if t.isEmpty = true then
        Except.ok ((⟨data, off, tm, true, Mode.viewing none⟩ : State),
          false)
      else
        Except.ok ((⟨data,
          (State.nextOccurrenceOffset
            ⟨data, off, tm, dr, Mode.searching t⟩ t off).getD off,
          tm, true, Mode.viewing (some t)⟩ : State), false) := rfl
  rw [hne] at h0
  simp only [Bool.false_eq_true, if_false] at h0
  cases hocc : State.nextOccurrenceOffset
      ⟨data, off, tm, dr, Mode.searching t⟩ t off with
  | none =>
    rw [hocc, Option.getD_none] at h0
    refine ⟨⟨data, off, tm, true, Mode.viewing (some t)⟩, h0, rfl, rfl,
      ?_, fun _ => rfl⟩
    rintro ⟨i, hi, hmi⟩
    have hfalse : lineMatchesAt data t i = false :=
      nextOccurrenceOffset_none ⟨data, off, tm, dr, Mode.searching t⟩
        t off hocc i hi
    rw [hmi] at hfalse
    cases hfalse
  | some i =>
    rw [hocc, Option.getD_some] at h0
    have h3 : off ≤ i ∧ lineMatchesAt data t i = true ∧
        ∀ j, off ≤ j → j < i → lineMatchesAt data t j = false :=
      nextOccurrenceOffset_some ⟨data, off, tm, dr, Mode.searching t⟩
        t off i hocc
    obtain ⟨hle, hmatch, hmin⟩ := h3
    refine ⟨⟨data, i, tm, true, Mode.viewing (some t)⟩, h0, rfl, rfl,
      fun _ => ⟨hle, hmatch, hmin⟩, ?_⟩
    intro hall
    exact Bool.noConfusion (hmatch.symm.trans (hall i hle))

/-- C2, witness for the amended claim at a concrete input (term present
only at index 1, offset 0). -/
theorem C2_witness :
    ∃ s2, c2MatchState.handleKey (Key.char '\n') = .ok (s2, false) ∧
      s2.mode = Mode.viewing (some ['z']) ∧
      s2.data = c2MatchState.data ∧
      ((∃ i, c2MatchState.offset ≤ i ∧
          lineMatchesAt c2MatchState.data ['z'] i = true) →
        c2MatchState.offset ≤ s2.offset ∧
        lineMatchesAt c2MatchState.data ['z'] s2.offset = true ∧
        ∀ j, c2MatchState.offset ≤ j → j < s2.offset →
          lineMatchesAt c2MatchState.data ['z'] j = false) ∧
      ((∀ i, c2MatchState.offset ≤ i →
          lineMatchesAt c2MatchState.data ['z'] i = false) →
        s2.offset = c2MatchState.offset) :=
  C2_confirm_search c2MatchState ['z'] rfl (by decide)

/-! ## Claim C6 -/

/-- C6: while Viewing with an active term, `NextSearchResult` scans forward
from `offset + 1` (inclusive) to the end of the buffer with no wraparound;
on a match the offset moves to the first matching line index, on no match
the offset is unchanged (so repeated issuance past the last occurrence
leaves the offset fixed). -/
theorem C6_next_search_result (s : State) (t : Line)
    (hm : s.mode = Mode.viewing (some t)) :
    ∃ s2, s.handleKey (Key.char 'n') = .ok (s2, false) ∧
      s2.mode = s.mode ∧
      s2.data = s.data ∧
      ((∃ i, s.offset + 1 ≤ i ∧ lineMatchesAt s.data t i = true) →
        s.offset + 1 ≤ s2.offset ∧
        lineMatchesAt s.data t s2.offset = true ∧
        ∀ j, s.offset + 1 ≤ j → j < s2.offset →
          lineMatchesAt s.data t j = false) ∧
      ((∀ i, s.offset + 1 ≤ i → lineMatchesAt s.data t i = false) →
        s2.offset = s.offset) := by
  obtain ⟨data, off, tm, dr, mode⟩ := s
  have hm2 : mode = Mode.viewing (some t) := hm
  subst hm2
  have h0 : State.handleKey ⟨data, off, tm, dr, Mode.viewing (some t)⟩
      (Key.char 'n') =
      Except.ok ((⟨data,
        (State.nextOccurrenceOffset
          ⟨data, off, tm, dr, Mode.viewing (some t)⟩ t (off + 1)).getD off,
        tm, true, Mode.viewing (some t)⟩ : State), false) := rfl
  cases hocc : State.nextOccurrenceOffset
      ⟨data, off, tm, dr, Mode.viewing (some t)⟩ t (off + 1) with
  | none =>
    rw [hocc, Option.getD_none] at h0
    refine ⟨⟨data, off, tm, true, Mode.viewing (some t)⟩, h0, rfl, rfl,
      ?_, fun _ => rfl⟩
    rintro ⟨i, hi, hmi⟩
    have hfalse : lineMatchesAt data t i = false :=
      nextOccurrenceOffset_none
        ⟨data, off, tm, dr, Mode.viewing (some t)⟩ t (off + 1) hocc i hi
    rw [hmi] at hfalse
    cases hfalse
  | some i =>
    rw [hocc, Option.getD_some] at h0
    have h3 : off + 1 ≤ i ∧ lineMatchesAt data t i = true ∧
        ∀ j, off + 1 ≤ j → j < i → lineMatchesAt data t j = false :=
      nextOccurrenceOffset_some
        ⟨data, off, tm, dr, Mode.viewing (some t)⟩ t (off + 1) i hocc
    obtain ⟨hle, hmatch, hmin⟩ := h3
    refine ⟨⟨data, i, tm, true, Mode.viewing (some t)⟩, h0, rfl, rfl,
      fun _ => ⟨hle, hmatch, hmin⟩, ?_⟩
    intro hall
    exact Bool.noConfusion (hmatch.symm.trans (hall i hle))

/-- C6, witness at a concrete input (active term `"a"` present only at
index 1, offset 0). -/
theorem C6_witness :
    ∃ s2, c6ViewState.handleKey (Key.char 'n') = .ok (s2, false) ∧
      s2.mode = c6ViewState.mode ∧
      s2.data = c6ViewState.data ∧
      ((∃ i, c6ViewState.offset + 1 ≤ i ∧
          lineMatchesAt c6ViewState.data ['a'] i = true) →
        c6ViewState.offset + 1 ≤ s2.offset ∧
        lineMatchesAt c6ViewState.data ['a'] s2.offset = true ∧
        ∀ j, c6ViewState.offset + 1 ≤ j → j < s2.offset →
          lineMatchesAt c6ViewState.data ['a'] j = false) ∧
      ((∀ i, c6ViewState.offset + 1 ≤ i →
          lineMatchesAt c6ViewState.data ['a'] i = false) →
        s2.offset = c6ViewState.offset) :=
  C6_next_search_result c6ViewState ['a'] rfl
